import Mathlib

/-!
Verification development for the contributor-automation scripts
(`scripts/utils.py`, `scripts/contributor_checker.py`,
`scripts/contributor_manager.py`).

Python strings are modelled as Lean `String`/`List Char`.  The Unicode-aware
Python character classifiers (`str.isalnum`, `str.lower`, `str.isdigit`,
`str.strip`) are modelled faithfully on the Basic Latin and Latin-1
Supplement blocks (code points < 0x100); code points above that range are
treated as non-alphanumeric, non-digit and case-invariant.  No theorem below
depends on the behaviour outside that range except through explicitly
ASCII-restricted hypotheses or concrete Latin-1 inputs.
-/

/-- Model of Python `str.isspace` membership used by `str.strip()` for the
ASCII whitespace characters (the only ones the claims exercise). -/
def pyIsSpace (c : Char) : Bool :=
  c = ' ' || c = '\t' || c = '\n' || c = '\r' || c = '\x0b' || c = '\x0c'

/-- Model of Python `str.strip(chars)` for a character predicate: remove all
leading and all trailing characters satisfying `p`. -/
def pyStrip (p : Char → Bool) (s : String) : String :=
  String.mk (((s.toList.dropWhile p).reverse.dropWhile p).reverse)

/-- Model of Python `str.lower` on the Basic Latin and Latin-1 blocks:
ASCII upper-case letters and the Latin-1 upper-case letters U+00C0..U+00DE
(excluding the multiplication sign U+00D7) map down by 0x20. -/
def pyToLower (c : Char) : Char :=
  if 'A' ≤ c && c ≤ 'Z' then Char.ofNat (c.toNat + 32)
  else if 0xC0 ≤ c.toNat && c.toNat ≤ 0xDE && c.toNat ≠ 0xD7 then Char.ofNat (c.toNat + 32)
  else c

/-- Pointwise `pyToLower` over a string, modelling Python `str.lower()`. -/
def pyLowerStr (s : String) : String :=
  String.mk (s.toList.map pyToLower)

/-- Model of Python `str.isalnum` on one character, for the Basic Latin and
Latin-1 blocks: ASCII alphanumerics, the Latin-1 letters (U+00C0..U+00FF
minus × and ÷, plus ª µ º) and the Latin-1 numeric signs (² ³ ¹ ¼ ½ ¾). -/
def pyIsAlnum (c : Char) : Bool :=
  c.isAlphanum ||
  c.toNat = 0xAA || c.toNat = 0xB2 || c.toNat = 0xB3 || c.toNat = 0xB5 ||
  c.toNat = 0xB9 || c.toNat = 0xBA || c.toNat = 0xBC || c.toNat = 0xBD || c.toNat = 0xBE ||
  (0xC0 ≤ c.toNat && c.toNat ≤ 0xFF && c.toNat ≠ 0xD7 && c.toNat ≠ 0xF7)

/-- Model of Python `str.isdigit` on one character for the Basic Latin and
Latin-1 blocks: the ASCII decimal digits plus the superscript digits
¹ ² ³ (U+00B9, U+00B2, U+00B3), the only further code points below 0x100
with the digit property. -/
def pyIsDigitChar (c : Char) : Bool :=
  c.isDigit || c.toNat = 0xB2 || c.toNat = 0xB3 || c.toNat = 0xB9

/-- Model of Python `str.isdigit` on a string (`"".isdigit()` is `False`). -/
def pyIsDigitStr (s : String) : Bool :=
  !s.toList.isEmpty && s.toList.all pyIsDigitChar

/-- The character filter of `utils.sanitize_filename`:
`c.isalnum() or c in '-_'`. -/
def keepChar (c : Char) : Bool :=
  pyIsAlnum c || c = '-' || c = '_'

/-- `utils.sanitize_filename`: keep the characters that are alphanumeric or
in `-_`, then lower-case the result. -/
def sanitize_filename (username : String) : String :=
  pyLowerStr (String.mk (username.toList.filter keepChar))

/-- The character set `[a-z0-9_-]` named by the specification. -/
def specAllowedChar (c : Char) : Bool :=
  ('a' ≤ c && c ≤ 'z') || ('0' ≤ c && c ≤ '9') || c = '-' || c = '_'

/-- The `s.strip().strip('"').strip("'")` pipeline shared by
`utils.validate_discord_id` and `utils.validate_wallet_address`. -/
def stripQuotesPipeline (s : String) : String :=
  pyStrip (fun c => c = '\'') (pyStrip (fun c => c = '"') (pyStrip pyIsSpace s))

/-- `utils.validate_discord_id`, with the configured length bounds passed in
(the config file gives `discord_id_min_length`/`discord_id_max_length`). -/
def validate_discord_id (min_len max_len : Nat) (discord_id : String) : Bool :=
  if discord_id = "" then false
  else
    let t := stripQuotesPipeline discord_id
    if !pyIsDigitStr t then false
    else decide (min_len ≤ t.length) && decide (t.length ≤ max_len)

/-- The trim step as the specification sentence describes it: surrounding
whitespace, then a single layer of matching quote characters. -/
def trimOneQuoteLayer (s : String) : String :=
  let t := pyStrip pyIsSpace s
  match t.toList with
  | c :: _ =>
    if (c = '"' || c = '\'') && decide (2 ≤ t.toList.length) && t.toList.getLast? = some c
    then String.mk ((t.toList.drop 1).dropLast) else t
  | [] => t

/-- The chat-id validator as the claim words it: after trimming whitespace
and a single layer of matching quotes, all decimal digits with length in
the inclusive range. -/
def discordIdClaimSpec (min_len max_len : Nat) (s : String) : Bool :=
  let t := trimOneQuoteLayer s
  !t.toList.isEmpty && t.toList.all Char.isDigit &&
    decide (min_len ≤ t.length) && decide (t.length ≤ max_len)

/-- Hexadecimal digit as the regex class `[a-fA-F0-9]` and Python's base-16
digit set. -/
def isHexChar (c : Char) : Bool :=
  c.isDigit || ('a' ≤ c && c ≤ 'f') || ('A' ≤ c && c ≤ 'F')

/-- Continuation of Python's numeric-literal scan after a hex digit has been
read: more digits, optionally separated by single underscores. -/
def hexTail : List Char → Bool
  | [] => true
  | ['_'] => false
  | '_' :: c :: cs => isHexChar c && hexTail cs
  | c :: cs => isHexChar c && hexTail cs

/-- A nonempty underscore-separated run of hex digits starting with a digit. -/
def startHexRun : List Char → Bool
  | [] => false
  | c :: cs => isHexChar c && hexTail cs

/-- After a `0x`/`0X` base marker Python allows one underscore before the
first digit. -/
def afterHexMarker : List Char → Bool
  | '_' :: cs => startHexRun cs
  | cs => startHexRun cs

/-- The digit part of Python `int(s, 16)`: an optional `0x`/`0X` marker,
then an underscore-separated hex-digit run. -/
def hexBody : List Char → Bool
  | '0' :: 'x' :: rest => afterHexMarker rest
  | '0' :: 'X' :: rest => afterHexMarker rest
  | cs => startHexRun cs

/-- Model of `int(s, 16)` succeeding in Python: surrounding whitespace, an
optional single sign, an optional `0x`/`0X` marker, then hex digits with
single underscores allowed between digits. -/
def pyIntHexOk (s : String) : Bool :=
  match (pyStrip pyIsSpace s).toList with
  | '+' :: cs => hexBody cs
  | '-' :: cs => hexBody cs
  | cs => hexBody cs

/-- Model of Python `str.startswith`: the first string's character list has
the second as a prefix. -/
def pyStartsWith (s pfx : String) : Bool :=
  pfx.toList.isPrefixOf s.toList

/-- `utils.validate_wallet_address`, with the configured prefix and total
length passed in; the hex check is `int(wallet[2:], 16)` on the slice from
index 2, exactly as in the source. -/
def validate_wallet_address (pfx : String) (total_len : Nat) (wallet : String) : Bool :=
  if wallet = "" then false
  else
    let t := stripQuotesPipeline wallet
    if !pyStartsWith (pyLowerStr t) pfx then false
    else if decide (t.length ≠ total_len) then false
    else pyIntHexOk (String.mk (t.toList.drop 2))

/-- The wallet validator as the claim words it: after the validator's
trim/unquote step, the configured case-insensitive prefix, the exact
configured total length, and every character following the prefix a
hexadecimal digit. -/
def walletClaimSpec (pfx : String) (total_len : Nat) (wallet : String) : Bool :=
  let t := stripQuotesPipeline wallet
  pyStartsWith (pyLowerStr t) pfx && decide (t.length = total_len) &&
    (t.toList.drop pfx.length).all isHexChar

/-- Case-insensitive literal matching for a lower-case regex label under
`re.IGNORECASE`: consume the label, returning the remainder on success. -/
def matchLabelCI : List Char → List Char → Option (List Char)
  | [], cs => some cs
  | _ :: _, [] => none
  | l :: ls, c :: cs => if pyToLower c = l then matchLabelCI ls cs else none

/-- The optional-quote element `["\']?` of the comment regexes: consume one
leading `"` or `'` if present. -/
def dropOneQuote (cs : List Char) : List Char :=
  match cs with
  | c :: t => if c = '"' || c = '\'' then t else c :: t
  | [] => []

/-- Attempt of the regex `discord:\s*["\']?(\d{17,20})["\']?` (IGNORECASE)
at the head of the list, returning the captured digit group.  The greedy
`\d{17,20}` needs a digit run of at least 17 and captures at most 20; the
trailing optional quote never fails. -/
def tryDiscordAt (cs : List Char) : Option String :=
  match matchLabelCI "discord:".toList cs with
  | none => none
  | some r1 =>
    let r3 := dropOneQuote (r1.dropWhile pyIsSpace)
    let run := r3.takeWhile Char.isDigit
    if 17 ≤ run.length then some (String.mk (run.take 20)) else none

/-- Attempt of the regex `wallet:\s*["\']?(0x[a-fA-F0-9]{40})["\']?`
(IGNORECASE) at the head of the list, returning the captured group
(`0x`/`0X` kept as written, plus exactly 40 hex characters). -/
def tryWalletAt (cs : List Char) : Option String :=
  match matchLabelCI "wallet:".toList cs with
  | none => none
  | some r1 =>
    match dropOneQuote (r1.dropWhile pyIsSpace) with
    | '0' :: x :: rest =>
      if (x = 'x' || x = 'X') && decide (40 ≤ rest.length) && (rest.take 40).all isHexChar
      then some (String.mk ('0' :: x :: rest.take 40)) else none
    | _ => none

/-- `re.search` for the discord pattern: leftmost successful attempt. -/
def searchDiscord : List Char → Option String
  | [] => none
  | c :: cs =>
    match tryDiscordAt (c :: cs) with
    | some d => some d
    | none => searchDiscord cs

/-- `re.search` for the wallet pattern: leftmost successful attempt. -/
def searchWallet : List Char → Option String
  | [] => none
  | c :: cs =>
    match tryWalletAt (c :: cs) with
    | some w => some w
    | none => searchWallet cs

/-- The structured identity claim extracted from a comment body. -/
structure IdentityClaim where
  discord_id : String
  wallet : String
deriving DecidableEq

/-- `utils.parse_contributor_comment`: both regex searches must succeed,
otherwise no claim (no half-extracted data). -/
def parse_contributor_comment (comment_body : String) : Option IdentityClaim :=
  match searchDiscord comment_body.toList, searchWallet comment_body.toList with
  | some d, some w => some ⟨d, w⟩
  | _, _ => none

/-- The discord pattern of §4.3 occurs somewhere in `s` with captured value
`d`: a case-insensitive `discord:` label, whitespace, an optional quote and
17–20 decimal digits. -/
def DiscordClaimAt (s : List Char) (d : String) : Prop :=
  ∃ pre lab ws q ds post,
    s = pre ++ lab ++ ws ++ q ++ ds ++ post ∧
    lab.map pyToLower = "discord:".toList ∧
    (∀ c ∈ ws, pyIsSpace c = true) ∧
    (q = [] ∨ q = ['"'] ∨ q = ['\'']) ∧
    (∀ c ∈ ds, Char.isDigit c = true) ∧
    17 ≤ ds.length ∧ ds.length ≤ 20 ∧
    d = String.mk ds

/-- The wallet pattern of §4.3 occurs somewhere in `s` with captured value
`w`: a case-insensitive `wallet:` label, whitespace, an optional quote,
`0x`/`0X` and exactly 40 hexadecimal characters. -/
def WalletClaimAt (s : List Char) (w : String) : Prop :=
  ∃ pre lab ws q x hx post,
    s = pre ++ lab ++ ws ++ q ++ ('0' :: x :: hx) ++ post ∧
    lab.map pyToLower = "wallet:".toList ∧
    (∀ c ∈ ws, pyIsSpace c = true) ∧
    (q = [] ∨ q = ['"'] ∨ q = ['\'']) ∧
    (x = 'x' ∨ x = 'X') ∧
    (∀ c ∈ hx, isHexChar c = true) ∧
    hx.length = 40 ∧
    w = String.mk ('0' :: x :: hx)

/-- Modelled from the spec: the configured discord-id length bounds and the
wallet prefix/length (`config/config.toml` is not under `src/`); §4.3/§6
give 17–20 digits and `0x` plus 40 hex characters (total length 42). -/
def discord_id_min_length : Nat := 17

/-- Modelled from the spec: upper length bound for discord ids. -/
def discord_id_max_length : Nat := 20

/-- Modelled from the spec: configured wallet prefix. -/
def wallet_prefix : String := "0x"

/-- Modelled from the spec: configured wallet total length. -/
def wallet_length : Nat := 42

/-- One comment of a pull-request thread, in the fields the scanner reads:
author login, body, and comment identifier. -/
structure IssueComment where
  user_login : String
  body : String
  comment_id : Nat
deriving DecidableEq

/-- The scanner's result dictionary: either `{'has_response': False}` or the
full response record with raw values, validity flags and comment id. -/
inductive ResponseResult where
  | noResponse
  | response (discord_id wallet_address : String)
      (valid discord_valid wallet_valid : Bool) (comment_id : Nat)
deriving DecidableEq

/-- Modelled from the spec: `parse_discord_wallet_comment` is imported by
`contributor_checker.py` but its definition is not under `src/`; §4.3
specifies exactly the two labeled patterns implemented by
`utils.parse_contributor_comment`, returning the extracted pair that the
caller reads back as the discord id and the wallet address. -/
def parse_discord_wallet_comment (comment_body : String) : Option IdentityClaim :=
  parse_contributor_comment comment_body

/-- Result construction of `check_for_response_in_pr` for a qualifying
comment: raw extracted values, independent validity flags, their
conjunction, and the source comment id. -/
def mkResponse (c : IssueComment) (p : IdentityClaim) : ResponseResult :=
  let dv := validate_discord_id discord_id_min_length discord_id_max_length p.discord_id
  let wv := validate_wallet_address wallet_prefix wallet_length p.wallet
  .response p.discord_id p.wallet (dv && wv) dv wv c.comment_id

/-- The comment loop of `check_for_response_in_pr`, already walking the
reversed (most recent first) comment list: the first comment whose author
equals the PR author case-insensitively and whose body parses is returned. -/
def scanReversed (pr_author : String) : List IssueComment → ResponseResult
  | [] => .noResponse
  | c :: rest =>
    if pyLowerStr c.user_login = pyLowerStr pr_author then
      match parse_discord_wallet_comment c.body with
      | some p => mkResponse c p
      | none => scanReversed pr_author rest
    else scanReversed pr_author rest

/-- `contributor_checker.check_for_response_in_pr` on a fetched comment
thread in chronological order: walk it reversed. -/
def check_for_response_in_pr (pr_author : String) (comments : List IssueComment) : ResponseResult :=
  scanReversed pr_author comments.reverse

/-- A comment that the scanner honours: author matches the PR author
case-insensitively and the body yields a claim. -/
def Qualifies (pr_author : String) (c : IssueComment) : Prop :=
  pyLowerStr c.user_login = pyLowerStr pr_author ∧
    (parse_discord_wallet_comment c.body).isSome = true

/-- One entry of the `pull_requests` array, as written by the manager. -/
structure PREntry where
  pr_number : Int
  repository : String
  title : String
  lines_changed : Int
  labels : List String
deriving DecidableEq

/-- The `pr_data` dictionary handed to the manager: `pr_number` and
`repo_name` are accessed with `[]` (required), the rest with `.get` and a
default. -/
structure PRData where
  pr_number : Int
  repo_name : String
  pr_title : Option String
  lines_changed : Option Int
  labels : Option (List String)
deriving DecidableEq

/-- The PR entry both manager operations build from `pr_data`. -/
def mkPREntry (p : PRData) : PREntry :=
  { pr_number := p.pr_number
    repository := p.repo_name
    title := p.pr_title.getD ""
    lines_changed := p.lines_changed.getD 0
    labels := p.labels.getD [] }

/-- The `contributor` table of a record document; `total_prs` may be absent
in a loaded file, and is (re)assigned by the append operation. -/
structure ContributorTable where
  github_username : String
  discord_id : String
  wallet_address : String
  total_prs : Option Int
deriving DecidableEq

/-- The optional `status` table; both fields may be absent. -/
structure StatusTable where
  current_role : Option String
  blocked : Option Bool
deriving DecidableEq

/-- The optional `stats` table; both fields may be absent. -/
structure StatsTable where
  total_prs : Option Int
  avg_lines_changed : Option Int
deriving DecidableEq

/-- The optional `discord` table read by the promotion check. -/
structure DiscordTable where
  user_id : Option String
deriving DecidableEq

/-- A loaded contributor record document: each top-level table may be
absent, mirroring `dict.get` on the parsed TOML data. -/
structure RecordDoc where
  schema_version : Option Int
  contributor : Option ContributorTable
  status : Option StatusTable
  stats : Option StatsTable
  discord : Option DiscordTable
  pull_requests : Option (List PREntry)
deriving DecidableEq

/-- `ContributorManager.create_contributor`: the document it writes for a
new contributor — `total_prs` hard-coded to 1 inside the `contributor`
table, one PR entry, and no `status`, `stats` or `discord` tables. -/
def create_contributor (schema_version : Int) (username discord_id wallet : String)
    (pr_data : PRData) : RecordDoc :=
  { schema_version := some schema_version
    contributor := some
      { github_username := username
        discord_id := discord_id
        wallet_address := wallet
        total_prs := some 1 }
    status := none
    stats := none
    discord := none
    pull_requests := some [mkPREntry pr_data] }

/-- `ContributorManager.add_pr_to_contributor` on a loaded document: append
the new entry to `pull_requests` and overwrite `contributor.total_prs` with
the new list length.  `none` models the `KeyError` raised when the
`pull_requests` or `contributor` key is absent. -/
def add_pr_to_contributor (doc : RecordDoc) (pr_data : PRData) : Option RecordDoc :=
  match doc.pull_requests, doc.contributor with
  | some prs, some ct =>
    let prs2 := prs ++ [mkPREntry pr_data]
    some { doc with
            pull_requests := some prs2
            contributor := some { ct with total_prs := some (Int.ofNat prs2.length) } }
  | _, _ => none

/-- The documents producible solely by this program's create and (successful)
append operations. -/
inductive Produced : RecordDoc → Prop where
  | created (schema_version : Int) (username discord_id wallet : String) (pr_data : PRData) :
      Produced (create_contributor schema_version username discord_id wallet pr_data)
  | appended (doc : RecordDoc) (pr_data : PRData) (doc2 : RecordDoc) :
      Produced doc → add_pr_to_contributor doc pr_data = some doc2 → Produced doc2

/-- The promotion thresholds read from the `promotion` config table. -/
structure PromotionConfig where
  threshold : Int
  min_avg_lines : Int
deriving DecidableEq

/-- The result dictionary of `check_promotion_eligibility`: the absent-record
dictionary `{'exists': False, 'eligible_for_promotion': False}` or the full
report for an existing record. -/
inductive PromotionResult where
  | notOnboarded
  | report (eligible : Bool) (current_role : String) (total_prs avg_lines : Int)
      (discord_id : String) (is_blocked : Bool)
deriving DecidableEq

/-- The `exists` field of the result dictionary. -/
def PromotionResult.existsFlag : PromotionResult → Bool
  | .notOnboarded => false
  | .report _ _ _ _ _ _ => true

/-- The `eligible_for_promotion` field of the result dictionary. -/
def PromotionResult.eligibleFlag : PromotionResult → Bool
  | .notOnboarded => false
  | .report e _ _ _ _ _ => e

/-- The `total_prs` field reported for an existing record (0 otherwise). -/
def PromotionResult.reportedTotalPrs : PromotionResult → Int
  | .notOnboarded => 0
  | .report _ _ t _ _ _ => t

/-- The `avg_lines` field reported for an existing record (0 otherwise). -/
def PromotionResult.reportedAvgLines : PromotionResult → Int
  | .notOnboarded => 0
  | .report _ _ _ a _ _ => a

/-- `contributor_checker.check_promotion_eligibility` after the existence
check: `none` is an absent record file, `some doc` the loaded document.
Field reads mirror `toml_data.get(table, {}).get(field, default)`. -/
def check_promotion_eligibility (cfg : PromotionConfig) (record : Option RecordDoc) :
    PromotionResult :=
  match record with
  | none => .notOnboarded
  | some doc =>
    let current_role := (doc.status.bind StatusTable.current_role).getD "Apprentice"
    let is_blocked := (doc.status.bind StatusTable.blocked).getD false
    let total_prs := (doc.stats.bind StatsTable.total_prs).getD 0
    let avg_lines := (doc.stats.bind StatsTable.avg_lines_changed).getD 0
    let discord_id := (doc.discord.bind DiscordTable.user_id).getD ""
    let eligible := (current_role == "Apprentice") && !is_blocked &&
      decide (cfg.threshold ≤ total_prs) && decide (cfg.min_avg_lines ≤ avg_lines)
    .report eligible current_role total_prs avg_lines discord_id is_blocked

/-- Replace-all on character lists, fuelled for structural recursion; with
fuel at least the list length this is Python `str.replace` for a nonempty
pattern. -/
def replaceAllAux (pat rep : List Char) : Nat → List Char → List Char
  | 0, s => s
  | Nat.succ fuel, s =>
    if s = [] then []
    else if !pat.isEmpty && pat.isPrefixOf s then
      rep ++ replaceAllAux pat rep fuel (s.drop pat.length)
    else
      match s with
      | [] => []
      | c :: cs => c :: replaceAllAux pat rep fuel cs

/-- Model of Python `str.replace` (all occurrences, nonempty pattern). -/
def pyReplace (s pat rep : String) : String :=
  String.mk (replaceAllAux pat.toList rep.toList s.toList.length s.toList)

/-- The authenticated clone URL built by both clone variants:
`gist_url.replace('https://', f'https://{gist_pat}@')`. -/
def auth_url (gist_pat gist_url : String) : String :=
  pyReplace gist_url "https://" ("https://" ++ gist_pat ++ "@")

/-- The two `subprocess.run` failure modes caught by the clone functions. -/
inductive GitCloneFailure where
  | calledProcessError (stderr : String)
  | timeoutExpired
deriving DecidableEq

/-- The error message surfaced by `ContributorManager.clone_gist` on a
`CalledProcessError`: the raw subprocess stderr is interpolated. -/
def clone_gist_error_message (stderr : String) : String :=
  "Failed to clone Gist: " ++ stderr

/-- The error messages surfaced by `contributor_checker.clone_gist_repo`:
constant strings for both failure modes. -/
def clone_gist_repo_error_message : GitCloneFailure → String
  | .calledProcessError _ => "Failed to clone gist repository"
  | .timeoutExpired => "Git clone operation timed out"

/-- Concrete `pr_data` used by witnesses. -/
def prData0 : PRData :=
  { pr_number := 7, repo_name := "kpj2006/ContributorAutomation",
    pr_title := some "fix", lines_changed := some 12, labels := some ["bug"] }

/-- Concrete created document used by witnesses. -/
def doc1 : RecordDoc := create_contributor 1 "alice" "123456789012345678"
  "0x1234567890abcdef1234567890abcdef12345678" prData0

/-- Concrete appended document used by witnesses. -/
def doc2c : RecordDoc := (add_pr_to_contributor doc1 prData0).getD doc1

/-- Concrete comment body with both labeled lines, used by witnesses. -/
def body0 : String :=
  "discord: \"12345678901234567\"\nwallet: \"0x1234567890abcdef1234567890abcdef12345678\""

/-- Concrete thread comment for the scanner witness: another user, no claim. -/
def cmtOther : IssueComment :=
  { user_login := "maintainer", body := "please share your discord id and wallet",
    comment_id := 11 }

/-- Concrete thread comment for the scanner witness: the author, no claim. -/
def cmtChatter : IssueComment :=
  { user_login := "ALICE", body := "sure, one moment", comment_id := 12 }

/-- Concrete thread comment for the scanner witness: the author's claim
(login differing from the PR author only in case). -/
def cmtClaim : IssueComment :=
  { user_login := "ALICE", body := body0, comment_id := 13 }

/-- Concrete thread comment for the scanner witness: a later well-formed
claim by a different user, which must be skipped. -/
def cmtOtherClaim : IssueComment :=
  { user_login := "mallory", body := body0, comment_id := 14 }

theorem toList_mk (l : List Char) : (String.mk l).toList = l := rfl

/-- ASCII facts about the sanitizer characters, checked exhaustively over
the 128 ASCII code points. -/
theorem asciiKeepLemma : ∀ n : Fin 128,
    keepChar (Char.ofNat n.val) = true →
      specAllowedChar (pyToLower (Char.ofNat n.val)) = true ∧
      keepChar (pyToLower (Char.ofNat n.val)) = true ∧
      pyToLower (pyToLower (Char.ofNat n.val)) = pyToLower (Char.ofNat n.val) := by
  decide

theorem sanitize_toList (s : String) :
    (sanitize_filename s).toList = (s.toList.filter keepChar).map pyToLower := by
  simp [sanitize_filename, pyLowerStr, toList_mk]

/-- Claim C7 (counterexample): `sanitize_filename` does not stay inside
`[a-z0-9_-]` on every Unicode input — the Latin-1 letter `É` is kept by
`isalnum()` and lower-cased to `é`, which is outside the set. -/
theorem sanitize_filename_unicode_counterexample :
    sanitize_filename "É" = "é" ∧
    ¬ (∀ c ∈ (sanitize_filename "É").toList, specAllowedChar c = true) := by
  constructor
  · decide
  · intro h
    have := h 'é' (by decide)
    simp at this
    exact absurd this (by decide)

/-- Claim C7 (amended): for ASCII usernames, `sanitize_filename` produces
only characters from `[a-z0-9_-]` and is idempotent; for general Unicode
input non-ASCII alphanumerics are kept (lower-cased), not dropped. -/
theorem sanitize_filename_ascii_spec (s : String)
    (h : ∀ c ∈ s.toList, c.toNat < 128) :
    (∀ c ∈ (sanitize_filename s).toList, specAllowedChar c = true) ∧
    sanitize_filename (sanitize_filename s) = sanitize_filename s := by
  have key : ∀ c ∈ s.toList.filter keepChar,
      specAllowedChar (pyToLower c) = true ∧ keepChar (pyToLower c) = true ∧
      pyToLower (pyToLower c) = pyToLower c := by
    intro c hc
    have hmem : c ∈ s.toList := List.mem_of_mem_filter hc
    have hkeep : keepChar c = true := List.of_mem_filter hc
    have hlt : c.toNat < 128 := h c hmem
    have := asciiKeepLemma ⟨c.toNat, hlt⟩ (by simpa [Char.ofNat_toNat] using hkeep)
    simpa [Char.ofNat_toNat] using this
  constructor
  · intro c hc
    rw [sanitize_toList] at hc
    rcases List.mem_map.1 hc with ⟨d, hd, rfl⟩
    exact (key d hd).1
  · have h1 : (sanitize_filename s).toList.filter keepChar = (sanitize_filename s).toList := by
      rw [List.filter_eq_self]
      intro c hc
      rw [sanitize_toList] at hc
      rcases List.mem_map.1 hc with ⟨d, hd, rfl⟩
      exact (key d hd).2.1
    have h2 : sanitize_filename (sanitize_filename s) =
        String.mk (((sanitize_filename s).toList.filter keepChar).map pyToLower) := by
      simp [sanitize_filename, pyLowerStr, toList_mk]
    rw [h2, h1, sanitize_toList, List.map_map]
    have h3 : (s.toList.filter keepChar).map (pyToLower ∘ pyToLower) =
        (s.toList.filter keepChar).map pyToLower :=
      List.map_congr_left fun d hd => (key d hd).2.2
    rw [h3]
    simp [sanitize_filename, pyLowerStr, toList_mk]

/-- Witness for the amended C7 statement at a concrete ASCII username. -/
theorem sanitize_filename_ascii_spec_witness :
    (∀ c ∈ (sanitize_filename "Alice_B-99!").toList, specAllowedChar c = true) ∧
    sanitize_filename (sanitize_filename "Alice_B-99!") = sanitize_filename "Alice_B-99!" :=
  sanitize_filename_ascii_spec "Alice_B-99!" (by decide)

/-- Claim C9 (counterexample): the validator strips every leading/trailing
quote character, not a single layer of matching quotes — a doubly
double-quoted 17-digit id is accepted although the single-layer reading
rejects it. -/
theorem validate_discord_id_counterexample :
    validate_discord_id 17 20 "\"\"12345678901234567\"\"" = true ∧
    discordIdClaimSpec 17 20 "\"\"12345678901234567\"\"" = false := by
  decide

theorem validate_discord_id_eq (min_len max_len : Nat) (s : String) :
    validate_discord_id min_len max_len s =
      (pyIsDigitStr (stripQuotesPipeline s) &&
        (decide (min_len ≤ (stripQuotesPipeline s).length) &&
         decide ((stripQuotesPipeline s).length ≤ max_len))) := by
  by_cases hs : s = ""
  · subst hs
    have h0 : pyIsDigitStr (stripQuotesPipeline "") = false := by decide
    simp [validate_discord_id, h0]
  · simp only [validate_discord_id, if_neg hs]
    cases hd : pyIsDigitStr (stripQuotesPipeline s) <;> simp [hd, Bool.and_assoc]

/-- Claim C9 (amended): the chat-id validator returns true iff, after
stripping surrounding whitespace and then all leading/trailing double
quotes and then all leading/trailing single quotes (matching layers not
required), the remainder is a nonempty run of characters accepted by
Python's `str.isdigit` — the decimal digits, but also other Unicode digit
characters such as the superscripts ¹ ² ³ — with length within the
inclusive configured range; the spec's concrete examples hold, and a run
of 17 superscript digits is likewise accepted. -/
theorem validate_discord_id_amended_spec :
    (∀ (min_len max_len : Nat) (s : String),
      validate_discord_id min_len max_len s = true ↔
        ((stripQuotesPipeline s).toList ≠ [] ∧
         (stripQuotesPipeline s).toList.all pyIsDigitChar = true ∧
         min_len ≤ (stripQuotesPipeline s).length ∧
         (stripQuotesPipeline s).length ≤ max_len)) ∧
    validate_discord_id 17 20 "123456789012345678" = true ∧
    validate_discord_id 17 20 "12345" = false ∧
    validate_discord_id 17 20 "abc12345678901234" = false ∧
    validate_discord_id 17 20 "" = false ∧
    validate_discord_id 17 20 "²²²²²²²²²²²²²²²²²" = true := by
  refine ⟨?_, by decide, by decide, by decide, by decide, by decide⟩
  intro mn mx s
  rw [validate_discord_id_eq]
  simp [pyIsDigitStr, Bool.and_eq_true, decide_eq_true_iff, List.isEmpty_iff, and_assoc]

/-- Claim C10 (counterexample): the hex check is Python `int(wallet[2:], 16)`,
which itself accepts a second `0x` marker — so `0x0x` followed by 38 hex
characters passes the validator although the character after the prefix is
not a hexadecimal digit. -/
theorem validate_wallet_address_counterexample :
    validate_wallet_address "0x" 42 "0x0x1234567890abcdef1234567890abcdef123456" = true ∧
    walletClaimSpec "0x" 42 "0x0x1234567890abcdef1234567890abcdef123456" = false := by
  decide

/-- Claim C10 (amended): the wallet validator returns true iff, after the
trim/unquote step, the string starts with the prefix case-insensitively,
has the exact configured length, and the characters from index 2 on are
accepted by Python's base-16 parser (which also allows a sign, surrounding
whitespace, underscores between digits and one extra `0x`/`0X` marker);
the spec's concrete examples hold. -/
theorem validate_wallet_address_amended_spec :
    (∀ (total_len : Nat) (s : String),
      validate_wallet_address "0x" total_len s = true ↔
        (pyStartsWith (pyLowerStr (stripQuotesPipeline s)) "0x" = true ∧
         (stripQuotesPipeline s).length = total_len ∧
         pyIntHexOk (String.mk ((stripQuotesPipeline s).toList.drop 2)) = true)) ∧
    validate_wallet_address "0x" 42 "0x1234567890abcdef1234567890abcdef12345678" = true ∧
    validate_wallet_address "0x" 42 "0x1234567890abcdef1234567890abcdef123456" = false ∧
    validate_wallet_address "0x" 42 "0X1234567890abcdef1234567890abcdef12345678" = true ∧
    validate_wallet_address "0x" 42 "" = false := by
  refine ⟨?_, by decide, by decide, by decide, by decide⟩
  intro L s
  by_cases hs : s = ""
  · subst hs
    have h0 : pyStartsWith (pyLowerStr (stripQuotesPipeline "")) "0x" = false := by decide
    simp [validate_wallet_address, h0]
  · simp only [validate_wallet_address, if_neg hs]
    cases hp : pyStartsWith (pyLowerStr (stripQuotesPipeline s)) "0x"
    · simp [hp]
    · by_cases hL : (stripQuotesPipeline s).length = L
      · simp [hp, hL]
      · simp [hp, hL]

/-- Claim C1 (code bug): `ContributorManager.clone_gist` interpolates the
raw git stderr into its surfaced error, so a stderr carrying the
authenticated URL (as git emits on authentication failure) leaks the
credential; the ephemeral variant `clone_gist_repo` surfaces only a
constant, credential-free message. -/
theorem clone_gist_leaks_credential :
    ("ghp_secret_token_1234".toList <:+:
      (clone_gist_error_message
        ("fatal: Authentication failed for '" ++
          auth_url "ghp_secret_token_1234" "https://gist.github.com/kpj2006/abc123" ++
          "'")).toList) ∧
    clone_gist_repo_error_message
        (.calledProcessError
          ("fatal: Authentication failed for '" ++
            auth_url "ghp_secret_token_1234" "https://gist.github.com/kpj2006/abc123" ++
            "'")) = "Failed to clone gist repository" ∧
    ¬ ("ghp_secret_token_1234".toList <:+:
        "Failed to clone gist repository".toList) := by
  refine ⟨⟨"Failed to clone Gist: fatal: Authentication failed for 'https://".toList,
          ("@gist.github.com/kpj2006/abc123'").toList, by decide⟩, rfl, ?_⟩
  decide

/-- Claim C4: for every loaded record document and thresholds configuration
the reported `eligible_for_promotion` flag is true iff the role (defaulted
to Apprentice) is Apprentice, the blocked flag (defaulted to false) is
false, and both stats (defaulted to 0) meet their thresholds. -/
theorem check_promotion_eligibility_iff (cfg : PromotionConfig) (doc : RecordDoc) :
    (check_promotion_eligibility cfg (some doc)).eligibleFlag = true ↔
      ((doc.status.bind StatusTable.current_role).getD "Apprentice" = "Apprentice" ∧
       (doc.status.bind StatusTable.blocked).getD false = false ∧
       cfg.threshold ≤ (doc.stats.bind StatsTable.total_prs).getD 0 ∧
       cfg.min_avg_lines ≤ (doc.stats.bind StatsTable.avg_lines_changed).getD 0) := by
  simp [check_promotion_eligibility, PromotionResult.eligibleFlag, Bool.and_eq_true,
    decide_eq_true_iff, and_assoc, Bool.not_eq_true']

/-- Claim C6: an absent record file yields the distinct not-onboarded result
(`exists` reported false), while every existing record — eligible or not —
reports `exists` true, so the two outcomes are always distinguishable. -/
theorem check_promotion_not_onboarded_distinct :
    (∀ cfg : PromotionConfig, check_promotion_eligibility cfg none = .notOnboarded) ∧
    (∀ cfg : PromotionConfig, (check_promotion_eligibility cfg none).existsFlag = false) ∧
    (∀ (cfg : PromotionConfig) (doc : RecordDoc),
      (check_promotion_eligibility cfg (some doc)).existsFlag = true) :=
  ⟨fun _ => rfl, fun _ => rfl, fun _ _ => rfl⟩

theorem produced_stats_none (doc : RecordDoc) (h : Produced doc) :
    doc.stats = none ∧ doc.contributor.isSome = true := by
  induction h with
  | created sv u d w pr => exact ⟨rfl, rfl⟩
  | appended d0 pr d2 hprod heq ih =>
    rcases hpq : d0.pull_requests with _ | prs <;>
      rcases hct : d0.contributor with _ | ct <;>
      rw [add_pr_to_contributor, hpq, hct] at heq <;>
      simp at heq
    cases heq
    exact ⟨ih.1, rfl⟩

/-- Claim C2: the create/append operations store the PR count only in the
contributor table and never write a stats table, so the promotion check —
which reads the stats table with default 0 — observes zero totals on every
record this program produced, and rejects it whenever either configured
threshold is positive. -/
theorem produced_records_never_eligible (doc : RecordDoc) (h : Produced doc)
    (cfg : PromotionConfig) :
    doc.stats = none ∧ doc.contributor.isSome = true ∧
    (check_promotion_eligibility cfg (some doc)).reportedTotalPrs = 0 ∧
    (check_promotion_eligibility cfg (some doc)).reportedAvgLines = 0 ∧
    (0 < cfg.threshold ∨ 0 < cfg.min_avg_lines →
      (check_promotion_eligibility cfg (some doc)).eligibleFlag = false) := by
  obtain ⟨hstat, hct⟩ := produced_stats_none doc h
  refine ⟨hstat, hct, ?_, ?_, ?_⟩
  · simp [check_promotion_eligibility, PromotionResult.reportedTotalPrs, hstat]
  · simp [check_promotion_eligibility, PromotionResult.reportedAvgLines, hstat]
  · intro hpos
    rcases hpos with hp | hp
    · have hd : decide (cfg.threshold ≤ 0) = false := by
        simp only [decide_eq_false_iff_not]
        omega
      simp [check_promotion_eligibility, PromotionResult.eligibleFlag, hstat, hd]
    · have hd : decide (cfg.min_avg_lines ≤ 0) = false := by
        simp only [decide_eq_false_iff_not]
        omega
      simp [check_promotion_eligibility, PromotionResult.eligibleFlag, hstat, hd]

/-- Witness for C2 at a concrete created record and positive thresholds. -/
theorem produced_records_never_eligible_witness :
    (check_promotion_eligibility ⟨5, 30⟩ (some doc1)).eligibleFlag = false :=
  (produced_records_never_eligible doc1
    (Produced.created 1 "alice" "123456789012345678"
      "0x1234567890abcdef1234567890abcdef12345678" prData0) ⟨5, 30⟩).2.2.2.2
    (Or.inl (by decide))

/-- Claim C3: after creation the stored counter is 1 and the list has one
entry; after every successful append, for every starting document and PR
entry, the counter is recomputed as the length of the extended list. -/
theorem total_prs_matches_list_length :
    (∀ (sv : Int) (u d w : String) (pr : PRData),
      ((create_contributor sv u d w pr).contributor.bind ContributorTable.total_prs) =
        some (Int.ofNat
          (((create_contributor sv u d w pr).pull_requests.getD []).length))) ∧
    (∀ (doc : RecordDoc) (pr : PRData) (doc2 : RecordDoc),
      add_pr_to_contributor doc pr = some doc2 →
      doc.pull_requests.isSome = true ∧
      doc2.pull_requests = some ((doc.pull_requests.getD []) ++ [mkPREntry pr]) ∧
      (doc2.contributor.bind ContributorTable.total_prs) =
        some (Int.ofNat (((doc.pull_requests.getD []) ++ [mkPREntry pr]).length))) := by
  constructor
  · intro sv u d w pr
    rfl
  · intro doc pr doc2 heq
    rcases hpq : doc.pull_requests with _ | prs <;>
      rcases hct : doc.contributor with _ | ct <;>
      rw [add_pr_to_contributor, hpq, hct] at heq <;>
      simp at heq
    cases heq
    refine ⟨rfl, rfl, ?_⟩
    simp

/-- Witness for C3's append part at a concrete starting document. -/
theorem total_prs_matches_list_length_witness :
    doc1.pull_requests.isSome = true ∧
    doc2c.pull_requests = some ((doc1.pull_requests.getD []) ++ [mkPREntry prData0]) ∧
    (doc2c.contributor.bind ContributorTable.total_prs) =
      some (Int.ofNat (((doc1.pull_requests.getD []) ++ [mkPREntry prData0]).length)) :=
  total_prs_matches_list_length.2 doc1 prData0 doc2c (by rfl)

theorem matchLabelCI_decomp (lab : List Char) :
    ∀ cs r, matchLabelCI lab cs = some r →
      ∃ lab2, cs = lab2 ++ r ∧ lab2.map pyToLower = lab := by
  induction lab with
  | nil =>
    intro cs r h
    simp only [matchLabelCI, Option.some.injEq] at h
    exact ⟨[], by rw [h]; rfl, rfl⟩
  | cons l ls ih =>
    intro cs r h
    cases cs with
    | nil => simp [matchLabelCI] at h
    | cons c cs2 =>
      rw [matchLabelCI] at h
      by_cases hc : pyToLower c = l
      · rw [if_pos hc] at h
        obtain ⟨lab2, rfl, hmap⟩ := ih cs2 r h
        exact ⟨c :: lab2, rfl, by simp [hmap, hc]⟩
      · rw [if_neg hc] at h
        cases h

theorem dropOneQuote_decomp (cs : List Char) :
    ∃ q, (q = [] ∨ q = ['"'] ∨ q = ['\'']) ∧ cs = q ++ dropOneQuote cs := by
  cases cs with
  | nil => exact ⟨[], Or.inl rfl, rfl⟩
  | cons c t =>
    by_cases h1 : c = '"'
    · subst h1
      exact ⟨['"'], Or.inr (Or.inl rfl), by simp [dropOneQuote]⟩
    · by_cases h2 : c = '\''
      · subst h2
        exact ⟨['\''], Or.inr (Or.inr rfl), by simp [dropOneQuote]⟩
      · exact ⟨[], Or.inl rfl, by simp [dropOneQuote, h1, h2]⟩

theorem tryDiscordAt_decomp (cs : List Char) (d : String)
    (h : tryDiscordAt cs = some d) : DiscordClaimAt cs d := by
  rw [tryDiscordAt] at h
  cases hm : matchLabelCI "discord:".toList cs with
  | none => rw [hm] at h; cases h
  | some r1 =>
    simp only [hm] at h
    obtain ⟨lab2, hcs, hmap⟩ := matchLabelCI_decomp _ _ _ hm
    set r2 := r1.dropWhile pyIsSpace with hr2def
    obtain ⟨q, hq, hr3⟩ := dropOneQuote_decomp r2
    set r3 := dropOneQuote r2 with hr3def
    set run := r3.takeWhile Char.isDigit with hrundef
    by_cases hlen : 17 ≤ run.length
    · rw [if_pos hlen, Option.some.injEq] at h
      have e3 : run.take 20 ++ (run.drop 20 ++ r3.dropWhile Char.isDigit) = r3 := by
        rw [← List.append_assoc, List.take_append_drop, hrundef,
          List.takeWhile_append_dropWhile]
      have e2 : q ++ r3 = r2 := hr3.symm
      have e1 : r1.takeWhile pyIsSpace ++ r2 = r1 := by
        rw [hr2def, List.takeWhile_append_dropWhile]
      refine ⟨[], lab2, r1.takeWhile pyIsSpace, q, run.take 20,
        run.drop 20 ++ r3.dropWhile Char.isDigit,
        ?_, hmap, ?_, hq, ?_, ?_, ?_, h.symm⟩
      · simp only [List.nil_append, List.append_assoc]
        rw [e3, e2, e1]
        exact hcs
      · intro c hc
        exact List.mem_takeWhile_imp hc
      · intro c hc
        exact List.mem_takeWhile_imp (List.mem_of_mem_take hc)
      · rw [List.length_take]
        omega
      · rw [List.length_take]
        omega
    · rw [if_neg hlen] at h
      cases h

theorem tryWalletAt_decomp (cs : List Char) (w : String)
    (h : tryWalletAt cs = some w) : WalletClaimAt cs w := by
  rw [tryWalletAt] at h
  cases hm : matchLabelCI "wallet:".toList cs with
  | none => rw [hm] at h; cases h
  | some r1 =>
    simp only [hm] at h
    obtain ⟨lab2, hcs, hmap⟩ := matchLabelCI_decomp _ _ _ hm
    set r2 := r1.dropWhile pyIsSpace with hr2def
    obtain ⟨q, hq, hr3⟩ := dropOneQuote_decomp r2
    set r3 := dropOneQuote r2 with hr3def
    clear_value r3
    split at h
    · rename_i x0 x rest
      by_cases hcond :
          ((x = 'x' || x = 'X') && decide (40 ≤ rest.length) &&
            (rest.take 40).all isHexChar) = true
      · rw [if_pos hcond, Option.some.injEq] at h
        obtain ⟨hAB, hC⟩ := Bool.and_eq_true_iff.mp hcond
        obtain ⟨hA, hB⟩ := Bool.and_eq_true_iff.mp hAB
        have hxor : x = 'x' ∨ x = 'X' := by
          rcases Bool.or_eq_true_iff.mp hA with h1 | h1
          · exact Or.inl (by simpa using h1)
          · exact Or.inr (by simpa using h1)
        have hBlen : 40 ≤ rest.length := of_decide_eq_true hB
        have e3 : ('0' :: x :: rest.take 40) ++ rest.drop 40 = '0' :: x :: rest := by
          rw [List.cons_append, List.cons_append, List.take_append_drop]
        have e2 : q ++ ('0' :: x :: rest) = r2 := hr3.symm
        have e1 : r1.takeWhile pyIsSpace ++ r2 = r1 := by
          rw [hr2def, List.takeWhile_append_dropWhile]
        refine ⟨[], lab2, r1.takeWhile pyIsSpace, q, x, rest.take 40, rest.drop 40,
          ?_, hmap, ?_, hq, hxor, ?_, ?_, h.symm⟩
        · rw [List.nil_append, List.append_assoc, List.append_assoc, e3, e2,
            List.append_assoc, e1]
          exact hcs
        · intro c hc
          exact List.mem_takeWhile_imp hc
        · intro c hc
          exact (List.all_eq_true.mp hC) c hc
        · rw [List.length_take]
          omega
      · rw [if_neg hcond] at h
        cases h
    · cases h

theorem DiscordClaimAt_cons (c : Char) (cs : List Char) (d : String)
    (h : DiscordClaimAt cs d) : DiscordClaimAt (c :: cs) d := by
  obtain ⟨pre, lab, ws, q, ds, post, heq, h2, h3, h4, h5, h6, h7, h8⟩ := h
  exact ⟨c :: pre, lab, ws, q, ds, post, by simp [heq], h2, h3, h4, h5, h6, h7, h8⟩

theorem WalletClaimAt_cons (c : Char) (cs : List Char) (w : String)
    (h : WalletClaimAt cs w) : WalletClaimAt (c :: cs) w := by
  obtain ⟨pre, lab, ws, q, x, hx, post, heq, h2, h3, h4, h5, h6, h7, h8⟩ := h
  exact ⟨c :: pre, lab, ws, q, x, hx, post, by simp [heq], h2, h3, h4, h5, h6, h7, h8⟩

theorem searchDiscord_decomp : ∀ (s : List Char) (d : String),
    searchDiscord s = some d → DiscordClaimAt s d := by
  intro s
  induction s with
  | nil => intro d h; cases h
  | cons c cs ih =>
    intro d h
    rw [searchDiscord] at h
    cases ht : tryDiscordAt (c :: cs) with
    | some d2 =>
      simp only [ht, Option.some.injEq] at h
      rw [← h]
      exact tryDiscordAt_decomp _ _ ht
    | none =>
      simp only [ht] at h
      exact DiscordClaimAt_cons c cs d (ih d h)

theorem searchWallet_decomp : ∀ (s : List Char) (w : String),
    searchWallet s = some w → WalletClaimAt s w := by
  intro s
  induction s with
  | nil => intro w h; cases h
  | cons c cs ih =>
    intro w h
    rw [searchWallet] at h
    cases ht : tryWalletAt (c :: cs) with
    | some w2 =>
      simp only [ht, Option.some.injEq] at h
      rw [← h]
      exact tryWalletAt_decomp _ _ ht
    | none =>
      simp only [ht] at h
      exact WalletClaimAt_cons c cs w (ih w h)

/-- Claim C8: the comment parser yields a claim only when both the discord
pattern (label, optional quote, 17–20 digits) and the wallet pattern
(label, optional quote, `0x` plus 40 hex characters) occur in the body —
case-insensitive labels, any order, anywhere in the text — and a body with
only a well-formed discord line yields no claim (no half-extracted data). -/
theorem parse_contributor_comment_requires_both :
    (∀ (body : String) (c : IdentityClaim),
      parse_contributor_comment body = some c →
        DiscordClaimAt body.toList c.discord_id ∧ WalletClaimAt body.toList c.wallet) ∧
    parse_contributor_comment "discord: \"123456789012345678\"" = none := by
  constructor
  · intro body c h
    rw [parse_contributor_comment] at h
    cases hd : searchDiscord body.toList with
    | none =>
      simp only [hd] at h
      exact Option.noConfusion h
    | some d =>
      cases hw : searchWallet body.toList with
      | none =>
        simp only [hd, hw] at h
        exact Option.noConfusion h
      | some w =>
        simp only [hd, hw, Option.some.injEq] at h
        rw [← h]
        exact ⟨searchDiscord_decomp _ _ hd, searchWallet_decomp _ _ hw⟩
  · decide

/-- Witness for C8 at a concrete body carrying both patterns. -/
theorem parse_contributor_comment_requires_both_witness :
    DiscordClaimAt body0.toList "12345678901234567" ∧
    WalletClaimAt body0.toList "0x1234567890abcdef1234567890abcdef12345678" :=
  parse_contributor_comment_requires_both.1 body0
    ⟨"12345678901234567", "0x1234567890abcdef1234567890abcdef12345678"⟩ (by decide)

theorem scanReversed_none (pr_author : String) (l : List IssueComment)
    (h : ∀ c ∈ l, ¬ Qualifies pr_author c) : scanReversed pr_author l = .noResponse := by
  induction l with
  | nil => rfl
  | cons c rest ih =>
    rw [scanReversed]
    by_cases hl : pyLowerStr c.user_login = pyLowerStr pr_author
    · rw [if_pos hl]
      cases hp : parse_discord_wallet_comment c.body with
      | some p =>
        exact absurd ⟨hl, by rw [hp]; rfl⟩ (h c (List.mem_cons_self c rest))
      | none =>
        simp only [hp]
        exact ih fun x hx => h x (List.mem_cons_of_mem c hx)
    · rw [if_neg hl]
      exact ih fun x hx => h x (List.mem_cons_of_mem c hx)

theorem scanReversed_some (pr_author : String) :
    ∀ (l : List IssueComment) (r : ResponseResult),
      scanReversed pr_author l = r → r ≠ .noResponse →
      ∃ l1 c l2 p, l = l1 ++ c :: l2 ∧ (∀ x ∈ l1, ¬ Qualifies pr_author x) ∧
        Qualifies pr_author c ∧ parse_discord_wallet_comment c.body = some p ∧
        r = mkResponse c p := by
  intro l
  induction l with
  | nil =>
    intro r h hne
    exact absurd h.symm hne
  | cons c rest ih =>
    intro r h hne
    rw [scanReversed] at h
    by_cases hl : pyLowerStr c.user_login = pyLowerStr pr_author
    · rw [if_pos hl] at h
      cases hp : parse_discord_wallet_comment c.body with
      | some p =>
        simp only [hp] at h
        exact ⟨[], c, rest, p, rfl, by simp, ⟨hl, by rw [hp]; rfl⟩, hp, h.symm⟩
      | none =>
        simp only [hp] at h
        obtain ⟨l1, c2, l2, p, rfl, h1, h2, h3, h4⟩ := ih r h hne
        refine ⟨c :: l1, c2, l2, p, rfl, ?_, h2, h3, h4⟩
        intro x hx
        rcases List.mem_cons.mp hx with rfl | hx2
        · rintro ⟨-, hq2⟩
          rw [hp] at hq2
          cases hq2
        · exact h1 x hx2
    · rw [if_neg hl] at h
      obtain ⟨l1, c2, l2, p, rfl, h1, h2, h3, h4⟩ := ih r h hne
      refine ⟨c :: l1, c2, l2, p, rfl, ?_, h2, h3, h4⟩
      intro x hx
      rcases List.mem_cons.mp hx with rfl | hx2
      · rintro ⟨hq1, -⟩
        exact hl hq1
      · exact h1 x hx2

theorem scanReversed_finds (pr_author : String) (l1 : List IssueComment)
    (c : IssueComment) (l2 : List IssueComment) (p : IdentityClaim)
    (h1 : ∀ x ∈ l1, ¬ Qualifies pr_author x) (hc : Qualifies pr_author c)
    (hp : parse_discord_wallet_comment c.body = some p) :
    scanReversed pr_author (l1 ++ c :: l2) = mkResponse c p := by
  revert h1
  induction l1 with
  | nil =>
    intro h1
    rw [List.nil_append, scanReversed, if_pos hc.1]
    simp only [hp]
  | cons x l1 ih =>
    intro h1
    rw [List.cons_append, scanReversed]
    by_cases hl : pyLowerStr x.user_login = pyLowerStr pr_author
    · rw [if_pos hl]
      cases hx : parse_discord_wallet_comment x.body with
      | some px =>
        exact absurd ⟨hl, by rw [hx]; rfl⟩ (h1 x (List.mem_cons_self x l1))
      | none =>
        simp only [hx]
        exact ih fun y hy => h1 y (List.mem_cons_of_mem x hy)
    · rw [if_neg hl]
      exact ih fun y hy => h1 y (List.mem_cons_of_mem x hy)

/-- Claim C5: the PR response scanner walks the thread most recent first and
returns exactly the most recent comment whose author matches the PR author
case-insensitively and whose body parses to a claim — skipping every other
comment, including well-formed claims by other users; the returned result
carries the raw extracted values, both validity flags and their
conjunction, and the comment id, and is the no-response value iff no
comment qualifies: the first part gives the no-response case, the second
characterises any response as the most recent qualifying comment's, and
the third guarantees a thread whose most recent qualifying comment is `c`
yields `c`'s response. -/
theorem check_for_response_spec :
    (∀ (pr_author : String) (comments : List IssueComment),
      (∀ c ∈ comments, ¬ Qualifies pr_author c) →
        check_for_response_in_pr pr_author comments = .noResponse) ∧
    (∀ (pr_author : String) (comments : List IssueComment) (r : ResponseResult),
      check_for_response_in_pr pr_author comments = r → r ≠ .noResponse →
      ∃ earlier c later p, comments = earlier ++ c :: later ∧
        Qualifies pr_author c ∧ (∀ x ∈ later, ¬ Qualifies pr_author x) ∧
        parse_discord_wallet_comment c.body = some p ∧
        r = .response p.discord_id p.wallet
              (validate_discord_id discord_id_min_length discord_id_max_length p.discord_id &&
                validate_wallet_address wallet_prefix wallet_length p.wallet)
              (validate_discord_id discord_id_min_length discord_id_max_length p.discord_id)
              (validate_wallet_address wallet_prefix wallet_length p.wallet)
              c.comment_id) ∧
    (∀ (pr_author : String) (earlier : List IssueComment) (c : IssueComment)
        (later : List IssueComment) (p : IdentityClaim),
      Qualifies pr_author c → (∀ x ∈ later, ¬ Qualifies pr_author x) →
      parse_discord_wallet_comment c.body = some p →
      check_for_response_in_pr pr_author (earlier ++ c :: later) =
        .response p.discord_id p.wallet
          (validate_discord_id discord_id_min_length discord_id_max_length p.discord_id &&
            validate_wallet_address wallet_prefix wallet_length p.wallet)
          (validate_discord_id discord_id_min_length discord_id_max_length p.discord_id)
          (validate_wallet_address wallet_prefix wallet_length p.wallet)
          c.comment_id) := by
  refine ⟨?_, ?_, ?_⟩
  · intro a comments h
    exact scanReversed_none a comments.reverse fun c hc => h c (List.mem_reverse.mp hc)
  · intro a comments r h hne
    obtain ⟨l1, c, l2, p, hrev, h1, h2, h3, h4⟩ :=
      scanReversed_some a comments.reverse r h hne
    refine ⟨l2.reverse, c, l1.reverse, p, ?_, h2, ?_, h3, ?_⟩
    · have := congrArg List.reverse hrev
      simp only [List.reverse_reverse, List.reverse_append, List.reverse_cons,
        List.append_assoc, List.singleton_append] at this
      exact this
    · intro x hx
      exact h1 x (List.mem_reverse.mp hx)
    · rw [h4]
      rfl
  · intro a earlier c later p hc hlater hp
    have hrev : (earlier ++ c :: later).reverse = later.reverse ++ c :: earlier.reverse := by
      simp [List.reverse_append]
    rw [check_for_response_in_pr, hrev,
      scanReversed_finds a later.reverse c earlier.reverse p
        (fun x hx => hlater x (List.mem_reverse.mp hx)) hc hp]
    rfl

/-- Witness for C5: the no-response case at an empty thread, and the
response case at a thread whose most recent qualifying comment is the
author's claim (posted under a differently-cased login), followed only by
another user's well-formed claim, which is skipped. -/
theorem check_for_response_spec_witness :
    check_for_response_in_pr "alice" [] = .noResponse ∧
    check_for_response_in_pr "alice" ([cmtOther, cmtChatter] ++ cmtClaim :: [cmtOtherClaim]) =
      .response "12345678901234567" "0x1234567890abcdef1234567890abcdef12345678"
        (validate_discord_id discord_id_min_length discord_id_max_length "12345678901234567" &&
          validate_wallet_address wallet_prefix wallet_length
            "0x1234567890abcdef1234567890abcdef12345678")
        (validate_discord_id discord_id_min_length discord_id_max_length "12345678901234567")
        (validate_wallet_address wallet_prefix wallet_length
          "0x1234567890abcdef1234567890abcdef12345678")
        13 :=
  ⟨check_for_response_spec.1 "alice" [] (by simp),
   check_for_response_spec.2.2 "alice" [cmtOther, cmtChatter] cmtClaim [cmtOtherClaim]
     ⟨"12345678901234567", "0x1234567890abcdef1234567890abcdef12345678"⟩
     (by unfold Qualifies; exact ⟨by decide, by decide⟩)
     (by intro x hx
         rw [List.mem_singleton] at hx
         subst hx
         unfold Qualifies
         decide)
     (by decide)⟩
